import Mathlib

/-!
# Verification of the freedb row-store query builder, row codec and KV lookup

Shallow embedding of the core of `vupham90/freedb` (Go).  The repository's
`src/models.go` contains the package constants, the `colIdx` data model and the
test suite (`TestGenerateQuery`, `TestSelectStmt_Exec`,
`TestGoogleSheetInsertStmt_convertRowToSlice`); the bodies of `queryBuilder`,
`convertRowToSlice` and the select decoding live outside the provided sources,
so they are modelled here from the specification (spec.md sections 4.2, 4.3,
4.4, 4.5), calibrated so that every concrete expectation asserted by the test
suite in `src/models.go` is reproduced exactly.
-/

deriving instance DecidableEq for Except

/-! ## Character-level string helpers

The Go implementation manipulates query strings with `strings.Count`,
`strings.Split`, `strings.TrimSpace` and `strings.Join`.  We model these
directly over `List Char` so that every operation is structurally recursive
and easy to reason about.
-/

/-- The list of characters of a string; all string reasoning happens here. -/
def chars (s : String) : List Char := s.data

/-- Rebuild a string from its characters. -/
def ofChars (l : List Char) : String := ⟨l⟩

/-- Models Go `strings.Join` (`strings.Join(parts, sep)`). -/
def sjoin (sep : String) : List String → String
  | [] => ""
  | [s] => s
  | s :: s2 :: rest => s ++ sep ++ sjoin sep (s2 :: rest)

/-- Split a character list at every occurrence of `sep`, keeping empty pieces,
models Go `strings.Split`. `acc` holds the current piece reversed. -/
def splitCharAux (sep : Char) : List Char → List Char → List String
  | [], acc => [ofChars acc.reverse]
  | c :: cs, acc =>
      if c = sep then ofChars acc.reverse :: splitCharAux sep cs []
      else splitCharAux sep cs (c :: acc)

/-- Split a string on a separator character. -/
def splitChar (sep : Char) (s : String) : List String :=
  splitCharAux sep (chars s) []

/-- Number of `?` placeholders in a string, models Go `strings.Count(s, "?")`. -/
def countQ (s : String) : Nat := (chars s).countP (· = '?')

/-- Split a string on the placeholder character `?`. -/
def splitQ (s : String) : List String := splitChar '?' s

/-- Split a string on single spaces (tokenisation of a predicate template). -/
def splitSpace (s : String) : List String := splitChar ' ' s

/-- Trim leading and trailing spaces from a character list. -/
def trimC (l : List Char) : List Char :=
  ((l.dropWhile (· = ' ')).reverse.dropWhile (· = ' ')).reverse

/-- Models Go `strings.TrimSpace` (restricted to the space character, the only
whitespace occurring in generated queries). -/
def strTrim (s : String) : String := ofChars (trimC (chars s))

/-- Is `pat` a prefix of `l`? -/
def hasPre : List Char → List Char → Bool
  | [], _ => true
  | _ :: _, [] => false
  | p :: ps, c :: cs => p = c && hasPre ps cs

/-- Does `pat` occur as a contiguous run inside `l`? -/
def subAt (pat : List Char) : List Char → Bool
  | [] => hasPre pat []
  | c :: cs => hasPre pat (c :: cs) || subAt pat cs

/-- Substring test used to state "the generated clause contains ...". -/
def strContains (s pat : String) : Bool := subAt (chars pat) (chars s)

/-! ## Package constants (from `src/models.go`) -/

/-- `maxColumn = 26` (src/models.go line 25). -/
def maxColumn : Nat := 26

/-- `scratchpadBooked = "BOOKED"` (src/models.go line 27). -/
def scratchpadBooked : String := "BOOKED"

/-- `defaultKVTableRange = "A1:C5000000"` (src/models.go line 30). -/
def defaultKVTableRange : String := "A1:C5000000"

/-- `kvGetAppendQueryTemplate` instantiated with a key and a table range
(src/models.go line 34):
`=VLOOKUP("%s", SORT(%s, 3, FALSE), 2, FALSE)`. -/
def kvGetAppendQuery (key range : String) : String :=
  "=VLOOKUP(\"" ++ key ++ "\", SORT(" ++ range ++ ", 3, FALSE), 2, FALSE)"

/-- Modelled from the spec: the reserved row-index column name used by the row
store (the logical name itself is declared outside the provided sources; the
tests index `colsMapping` with it as `rowIdxCol`). -/
def rowIdxCol : String := "_rid"

/-- The 26 physical column letters allowed by the `maxColumn = 26` limit
(spec section 3: letters follow a one-letter A..Z encoding). -/
def alphaLetters : List String :=
  ["A", "B", "C", "D", "E", "F", "G", "H", "I", "J", "K", "L", "M",
   "N", "O", "P", "Q", "R", "S", "T", "U", "V", "W", "X", "Y", "Z"]

/-! ## Column mapping -/

/-- A column mapping as handed to `newQueryBuilder`: the `NameMap` of a
`colsMapping`, i.e. an association of logical column names to physical
letters. -/
abbrev ColsNameMap : Type := List (String × String)

/-- Look a logical column name up in the mapping. -/
def mapLookup (m : ColsNameMap) (c : String) : Option String :=
  (List.find? (fun p => p.1 == c) m).map (fun p => p.2)

/-- Modelled from the spec (section 4.2 step 1): resolve a selected logical
column to its physical letter; unknown columns pass through as literal
tokens (permissive passthrough). -/
def resolveCol (m : ColsNameMap) (c : String) : String :=
  (mapLookup m c).getD c

/-- Modelled from the spec (section 4.2 step 4): column name tokens appearing
inside the user predicate template are rewritten to their physical letters
the same way as selected columns. -/
def rewriteTemplate (m : ColsNameMap) (s : String) : String :=
  sjoin " " ((splitSpace s).map (resolveCol m))

/-- The mapping used throughout `TestGenerateQuery` in src/models.go:
rowIdxCol maps to A, col1 to B, col2 to C. -/
def testMapping : ColsNameMap :=
  [(rowIdxCol, "A"), ("col1", "B"), ("col2", "C")]

/-! ## Query builder -/

/-- `OrderBy` is a string type in the source (src/models.go line 13). -/
def OrderBy : Type := String

/-- `OrderByAsc OrderBy = "ASC"` (src/models.go line 19). -/
def OrderByAsc : OrderBy := "ASC"

/-- `OrderByDesc OrderBy = "DESC"` (src/models.go line 20). -/
def OrderByDesc : OrderBy := "DESC"

/-- A positional `Where` argument.  Modelled from the spec (section 4.2 step
3): numeric and boolean values are supported, strings are supported, nil and
composite values are unsupported. -/
inductive QueryArg where
  | int (n : Int)
  | bool (b : Bool)
  | str (s : String)
  | null
  | list (elems : List String)
deriving DecidableEq

/-- A single-quote character as a string. -/
def singleQuote : String := "\x27"

/-- Modelled from the spec (section 4.2 step 3): render an argument as a
backend literal.  Numeric and boolean values render unquoted, strings render
single-quoted, any other type is a binding error. -/
def convertArg : QueryArg → Except String String
  | .int n => .ok (toString n)
  | .bool b => .ok (cond b "true" "false")
  | .str s => .ok (singleQuote ++ s ++ singleQuote)
  | .null => .error "unsupported argument type"
  | .list _ => .error "unsupported argument type"

/-- Is the argument of a type the builder cannot bind (nil or composite)? -/
def QueryArg.unsupported : QueryArg → Bool
  | .null => true
  | .list _ => true
  | _ => false

/-- Modelled from the spec: the query builder state (section 3, QueryBuilder
state): mapping, selected columns, optional user predicate template with its
positional arguments, ordering, limit and offset.  Limit and offset are `Nat`
with 0 meaning "not set", mirroring the Go zero value of `uint64`. -/
structure queryBuilder where
  mapping : ColsNameMap
  columns : List String
  whereTemplate : String
  whereArgs : List QueryArg
  orderBys : List (String × OrderBy)
  limitVal : Nat
  offsetVal : Nat

/-- Modelled from the spec: `newQueryBuilder(colsMapping.NameMap(),
ridWhereClauseInterceptor, colsToSelect)` — fresh builder, no predicate, no
ordering, no limit, no offset; the row-exists interceptor is fixed. -/
def newQueryBuilder (m : ColsNameMap) (cols : List String) : queryBuilder :=
  ⟨m, cols, "", [], [], 0, 0⟩

/-- `Where(template, args...)` stores the template and its arguments. -/
def queryBuilder.Where (qb : queryBuilder) (tmpl : String) (args : List QueryArg) :
    queryBuilder :=
  { qb with whereTemplate := tmpl, whereArgs := args }

/-- `Limit(n)`. -/
def queryBuilder.Limit (qb : queryBuilder) (n : Nat) : queryBuilder :=
  { qb with limitVal := n }

/-- `Offset(n)`. -/
def queryBuilder.Offset (qb : queryBuilder) (n : Nat) : queryBuilder :=
  { qb with offsetVal := n }

/-- `OrderBy(pairs)`. -/
def queryBuilder.orderBy (qb : queryBuilder) (pairs : List (String × OrderBy)) :
    queryBuilder :=
  { qb with orderBys := pairs }

/-- Modelled from the spec (section 4.2 step 2): the mandatory row-exists
clause is prepended to the user predicate; with no user predicate it is the
whole predicate.  Calibrated against `TestGenerateQuery`:
`select B, C where A is not null AND (B > 100 ...)`. -/
def ridWhereClauseInterceptor (w : String) : String :=
  if w = "" then rowIdxCol ++ " is not null"
  else rowIdxCol ++ " is not null AND " ++ w

/-- Interleave the template pieces (everything between consecutive `?`) with
the rendered arguments: each piece is trimmed and the rendered argument is
inserted before it, matching the joined-with-single-spaces output shape pinned
by `TestGenerateQuery` (`... C <= true ) OR ...`). -/
def buildPieces : List String → List QueryArg → Except String (List String)
  | [], _ => .ok []
  | _ :: _, [] => .error "missing argument for placeholder"
  | t :: ts, a :: more =>
      match convertArg a with
      | .error e => .error e
      | .ok ca =>
          match buildPieces ts more with
          | .error e => .error e
          | .ok rest => .ok (ca :: strTrim t :: rest)

/-- Substitute the positional arguments into the rewritten predicate. -/
def substituteArgs (w2 : String) (args : List QueryArg) : Except String String :=
  match splitQ w2 with
  | [] => .ok ""
  | t0 :: rest =>
      match buildPieces rest args with
      | .error e => .error e
      | .ok pieces => .ok (sjoin " " (strTrim t0 :: pieces))

/-- Modelled from the spec (section 4.2 steps 2-4): build the `where` clause.
The placeholder count of the intercepted predicate must equal the number of
supplied arguments (any mismatch is an error producing no partial query),
column tokens are rewritten to letters, and arguments are substituted in
order. -/
def generateWhere (qb : queryBuilder) : Except String String :=
  if countQ (ridWhereClauseInterceptor qb.whereTemplate) ≠ qb.whereArgs.length then
    .error "argument count mismatch"
  else
    substituteArgs
      (rewriteTemplate qb.mapping (ridWhereClauseInterceptor qb.whereTemplate))
      qb.whereArgs

/-- The selected-columns fragment: each column resolved to its letter,
joined with `", "`. -/
def generateCols (qb : queryBuilder) : String :=
  sjoin ", " (qb.columns.map (resolveCol qb.mapping))

/-- The `order by` fragment (spec section 4.2 step 5), empty when no ordering
was set. -/
def genOrderBy (qb : queryBuilder) : String :=
  match qb.orderBys with
  | [] => ""
  | ps => " order by " ++
      sjoin ", " (ps.map (fun p => resolveCol qb.mapping p.1 ++ " " ++ p.2))

/-- The `offset` fragment (spec section 4.2 step 6), emitted only if set. -/
def genOffset (qb : queryBuilder) : String :=
  if qb.offsetVal = 0 then "" else " offset " ++ toString qb.offsetVal

/-- The `limit` fragment (spec section 4.2 step 6), emitted only if set. -/
def genLimit (qb : queryBuilder) : String :=
  if qb.limitVal = 0 then "" else " limit " ++ toString qb.limitVal

/-- Modelled from the spec (section 4.2, `Generate`): assemble
`select <cols> where <predicate> [order by ...] [offset n] [limit n]`;
any clause error aborts with no query string. -/
def queryBuilder.Generate (qb : queryBuilder) : Except String String :=
  match generateWhere qb with
  | .error e => .error e
  | .ok w =>
      .ok ("select " ++ generateCols qb ++ " where " ++ w ++
        genOrderBy qb ++ genOffset qb ++ genLimit qb)

/-! ## Basic lemmas about the string helpers -/

theorem chars_ofChars (l : List Char) : chars (ofChars l) = l := rfl

theorem str_data_eq {a b : String} (h : a.data = b.data) : a = b := by
  cases a
  cases b
  exact congrArg String.mk h

theorem countQ_append (a b : String) : countQ (a ++ b) = countQ a + countQ b := by
  simp [countQ, chars, String.data_append, List.countP_append]

theorem countQ_sjoin_space (ts : List String) :
    countQ (sjoin " " ts) = (ts.map countQ).sum := by
  induction ts with
  | nil => rfl
  | cons x rest ih =>
      cases rest with
      | nil => simp [sjoin]
      | cons y r =>
          have hsp : countQ " " = 0 := by decide
          simp [sjoin, countQ_append, hsp] at ih ⊢
          omega

theorem splitAux_space_sum (l : List Char) (acc : List Char) :
    ((splitCharAux ' ' l acc).map countQ).sum =
      acc.countP (· = '?') + l.countP (· = '?') := by
  induction l generalizing acc with
  | nil =>
      simp [splitCharAux, countQ, chars_ofChars, List.countP_reverse]
  | cons c cs ih =>
      by_cases h : c = ' '
      · simp [splitCharAux, h, ih, countQ, chars_ofChars, List.countP_reverse,
          List.countP_cons]
      · simp [splitCharAux, h, ih, List.countP_cons]
        omega

theorem splitAux_q_len (l : List Char) (acc : List Char) :
    (splitCharAux '?' l acc).length = l.countP (· = '?') + 1 := by
  induction l generalizing acc with
  | nil => simp [splitCharAux]
  | cons c cs ih =>
      by_cases h : c = '?'
      · simp [splitCharAux, h, ih, List.countP_cons]
      · simp [splitCharAux, h, ih, List.countP_cons]

theorem splitAux_q_none (l : List Char) (acc : List Char)
    (h : l.countP (· = '?') = 0) :
    splitCharAux '?' l acc = [ofChars (acc.reverse ++ l)] := by
  induction l generalizing acc with
  | nil => simp [splitCharAux]
  | cons c cs ih =>
      rw [List.countP_cons] at h
      have hc : ¬(c = '?') := by
        intro hc
        simp [hc] at h
      have hcs : cs.countP (· = '?') = 0 := by omega
      simp [splitCharAux, hc, ih _ hcs]

/-! ## Lemmas about the column mapping and the predicate rewrite -/

/-- A mapping is sane when no logical name and no physical letter contains the
placeholder character; every real mapping (names are identifiers, letters are
A..Z) satisfies this. -/
def saneMapping (m : ColsNameMap) : Prop :=
  ∀ p ∈ m, countQ p.1 = 0 ∧ countQ p.2 = 0

instance (m : ColsNameMap) : Decidable (saneMapping m) := by
  unfold saneMapping
  infer_instance

theorem mapLookup_mem {m : ColsNameMap} {c l : String}
    (h : mapLookup m c = some l) : (c, l) ∈ m := by
  unfold mapLookup at h
  cases hf : List.find? (fun p => p.1 == c) m with
  | none => rw [hf] at h; cases h
  | some p =>
      rw [hf] at h
      have hp : p.2 = l := by simpa using h
      have hc : p.1 = c := by simpa using List.find?_some hf
      have hmem := List.mem_of_find?_eq_some hf
      have : p = (c, l) := by
        cases p
        simp at hp hc
        simp [hp, hc]
      rw [this] at hmem
      exact hmem

theorem resolveCol_countQ {m : ColsNameMap} (hm : saneMapping m) (c : String) :
    countQ (resolveCol m c) = countQ c := by
  unfold resolveCol
  cases h : mapLookup m c with
  | none => rfl
  | some l =>
      have hmem := mapLookup_mem h
      have := hm _ hmem
      simp at this
      simp [this.1, this.2]

theorem rewriteTemplate_countQ {m : ColsNameMap} (hm : saneMapping m)
    (s : String) : countQ (rewriteTemplate m s) = countQ s := by
  unfold rewriteTemplate
  rw [countQ_sjoin_space, List.map_map]
  have hfun : (countQ ∘ resolveCol m) = countQ := by
    funext c
    exact resolveCol_countQ hm c
  rw [hfun]
  have := splitAux_space_sum (chars s) []
  simpa [splitSpace, splitChar, countQ] using this

theorem countQ_interceptor (w : String) :
    countQ (ridWhereClauseInterceptor w) = countQ w := by
  unfold ridWhereClauseInterceptor
  by_cases h : w = ""
  · simp [h]
    decide
  · simp [h, countQ_append]
    have h1 : countQ rowIdxCol = 0 := by decide
    have h2 : countQ " is not null AND " = 0 := by decide
    omega

/-! ## Lemmas about argument conversion and substitution -/

theorem convertArg_of_unsupported {a : QueryArg} (h : a.unsupported = true) :
    convertArg a = .error "unsupported argument type" := by
  cases a <;> simp [QueryArg.unsupported] at h <;> rfl

theorem convertArg_ok_of_supported (a : QueryArg) (h : a.unsupported = false) :
    ∃ s, convertArg a = .ok s := by
  cases a <;> simp [QueryArg.unsupported] at h <;> exact ⟨_, rfl⟩

theorem buildPieces_error {ts : List String} {args : List QueryArg}
    (hlen : ts.length = args.length)
    (hbad : ∃ a ∈ args, a.unsupported = true) :
    ∃ e, buildPieces ts args = .error e := by
  induction ts generalizing args with
  | nil =>
      cases args with
      | nil => simp at hbad
      | cons a more => cases hlen
  | cons t ts ih =>
      cases args with
      | nil => cases hlen
      | cons a more =>
          by_cases hu : a.unsupported = true
          · exact ⟨"unsupported argument type",
              by simp [buildPieces, convertArg_of_unsupported hu]⟩
          · obtain ⟨s, hs⟩ :=
              convertArg_ok_of_supported a (by simpa using hu)
            rcases hbad with ⟨b, hb, hbu⟩
            rcases List.mem_cons.1 hb with rfl | hbmore
            · exact absurd hbu hu
            · obtain ⟨e, he⟩ := @ih more
                (by simpa using hlen) ⟨b, hbmore, hbu⟩
              exact ⟨e, by simp [buildPieces, hs, he]⟩

theorem generate_error_of_where {qb : queryBuilder} {e : String}
    (h : generateWhere qb = .error e) : qb.Generate = .error e := by
  unfold queryBuilder.Generate
  rw [h]

theorem map_resolveCol_of_forall₂ {m : ColsNameMap} {cols letters : List String}
    (h : List.Forall₂ (fun c l => mapLookup m c = some l) cols letters) :
    cols.map (resolveCol m) = letters := by
  induction h with
  | nil => rfl
  | cons h₁ _ ih => simp [resolveCol, h₁, ih]

theorem substituteArgs_rid (L : String) (hL : L ∈ alphaLetters) :
    substituteArgs (L ++ " is not null") [] = .ok (L ++ " is not null") := by
  revert L
  decide

theorem rewriteTemplate_rid {m : ColsNameMap} {ridL : String}
    (hrid : mapLookup m rowIdxCol = some ridL)
    (hIs : mapLookup m "is" = none)
    (hNot : mapLookup m "not" = none)
    (hNull : mapLookup m "null" = none) :
    rewriteTemplate m (ridWhereClauseInterceptor "") = ridL ++ " is not null" := by
  have h1 : ridWhereClauseInterceptor "" = "_rid is not null" := by decide
  have h2 : splitSpace "_rid is not null" = ["_rid", "is", "not", "null"] := by
    decide
  rw [rewriteTemplate, h1, h2]
  have hr : resolveCol m "_rid" = ridL := by
    have : mapLookup m "_rid" = some ridL := hrid
    simp [resolveCol, this]
  simp only [List.map_cons, List.map_nil, hr]
  simp only [resolveCol, hIs, hNot, hNull, Option.getD_none]
  show ridL ++ " " ++ ("is" ++ " " ++ ("not" ++ " " ++ "null")) =
    ridL ++ " is not null"
  rw [String.append_assoc]
  congr 1

/-! ## Claim theorems: query generation -/

/-- C1: for every column mapping (whose row-index column resolves to one of
the physical letters A..Z and which does not remap the literal words of the
row-exists clause) and every sequence of at most 26 selected column names all
present in the mapping, `Generate` succeeds and returns
`select <letters> where <rid-letter> is not null`, with the physical letters
in exactly the order of the input columns and the mandatory row-exists clause
always present. -/
theorem generate_select_letters_in_order
    (m : ColsNameMap) (cols letters : List String) (ridL : String)
    (hrid : mapLookup m rowIdxCol = some ridL)
    (hL : ridL ∈ alphaLetters)
    (hIs : mapLookup m "is" = none)
    (hNot : mapLookup m "not" = none)
    (hNull : mapLookup m "null" = none)
    (hlen : cols.length ≤ maxColumn)
    (hcols : List.Forall₂ (fun c l => mapLookup m c = some l) cols letters) :
    (newQueryBuilder m cols).Generate =
      .ok ("select " ++ sjoin ", " letters ++ " where " ++ ridL ++
        " is not null") := by
  have hwhere : generateWhere (newQueryBuilder m cols) =
      .ok (ridL ++ " is not null") := by
    unfold generateWhere
    have hcnt : countQ (ridWhereClauseInterceptor "") = 0 := by decide
    simp only [newQueryBuilder]
    rw [rewriteTemplate_rid hrid hIs hNot hNull]
    simp [hcnt, substituteArgs_rid ridL hL]
  unfold queryBuilder.Generate
  rw [hwhere]
  have hcols' : generateCols (newQueryBuilder m cols) = sjoin ", " letters := by
    unfold generateCols newQueryBuilder
    simp only
    rw [map_resolveCol_of_forall₂ hcols]
  rw [hcols']
  have ho1 : genOrderBy (newQueryBuilder m cols) = "" := rfl
  have ho2 : genOffset (newQueryBuilder m cols) = "" := rfl
  have ho3 : genLimit (newQueryBuilder m cols) = "" := rfl
  rw [ho1, ho2, ho3]
  simp [String.append_empty, String.append_assoc]

/-- Witness for C1 at the mapping and selection of `TestGenerateQuery`
(`successful_basic`): the result is `select B, C where A is not null`. -/
theorem generate_select_letters_in_order_witness :
    (newQueryBuilder testMapping ["col1", "col2"]).Generate =
      .ok ("select " ++ sjoin ", " ["B", "C"] ++ " where " ++ "A" ++
        " is not null") :=
  generate_select_letters_in_order testMapping ["col1", "col2"] ["B", "C"] "A"
    (by decide) (by decide) (by decide) (by decide) (by decide) (by decide)
    (List.Forall₂.cons (by decide) (List.Forall₂.cons (by decide)
      List.Forall₂.nil))

/-- C2: for every sane column mapping and every `Where` template and argument
list, a placeholder/argument count mismatch or an unsupported argument type
(nil or a composite value) makes `Generate` fail with an error: no query
string is produced. -/
theorem generate_where_mismatch_or_unsupported_errors
    (m : ColsNameMap) (cols : List String) (tmpl : String)
    (args : List QueryArg)
    (hm : saneMapping m)
    (h : countQ tmpl ≠ args.length ∨ ∃ a ∈ args, a.unsupported = true) :
    ∃ e, ((newQueryBuilder m cols).Where tmpl args).Generate = .error e := by
  have hqb : ((newQueryBuilder m cols).Where tmpl args).whereTemplate = tmpl :=
    rfl
  have hqa : ((newQueryBuilder m cols).Where tmpl args).whereArgs = args := rfl
  by_cases hc : countQ tmpl = args.length
  · rcases h with hcnt | hbad
    · exact absurd hc hcnt
    · have hw : countQ (ridWhereClauseInterceptor tmpl) = args.length := by
        rw [countQ_interceptor]
        exact hc
      have hw2 : countQ (rewriteTemplate m (ridWhereClauseInterceptor tmpl)) =
          args.length := by
        rw [rewriteTemplate_countQ hm]
        exact hw
      have hslen :
          (splitQ (rewriteTemplate m (ridWhereClauseInterceptor tmpl))).length =
            args.length + 1 := by
        rw [splitQ, splitChar, splitAux_q_len]
        have h' : (chars (rewriteTemplate m
            (ridWhereClauseInterceptor tmpl))).countP (· = '?') =
            args.length := hw2
        rw [h']
      cases hsplit :
          splitQ (rewriteTemplate m (ridWhereClauseInterceptor tmpl)) with
      | nil => rw [hsplit] at hslen; cases hslen
      | cons t0 rest =>
          have hrest : rest.length = args.length := by
            rw [hsplit] at hslen
            simpa using hslen
          obtain ⟨e, he⟩ := buildPieces_error hrest hbad
          refine ⟨e, generate_error_of_where ?_⟩
          have hqm : ((newQueryBuilder m cols).Where tmpl args).mapping = m :=
            rfl
          unfold generateWhere
          rw [hqb, hqa, hqm, if_neg (by simp [hw])]
          simp only [substituteArgs, hsplit, he]
  · have hne : countQ (ridWhereClauseInterceptor tmpl) ≠ args.length := by
      rw [countQ_interceptor]
      exact hc
    refine ⟨"argument count mismatch", generate_error_of_where ?_⟩
    unfold generateWhere
    rw [hqb, hqa]
    simp [hne]

theorem generate_of_where_ok {qb : queryBuilder} {w : String}
    (h : generateWhere qb = .ok w) :
    qb.Generate = .ok ("select " ++ generateCols qb ++ " where " ++ w ++
      genOrderBy qb ++ genOffset qb ++ genLimit qb) := by
  unfold queryBuilder.Generate
  rw [h]

/-- C3: numeric and boolean `Where` arguments render unquoted, string
arguments render single-quoted, and column name tokens of the template are
rewritten to their physical letters; in particular
`Where("col1 > ? AND col2 <= ?", 100, true)` against the mapping taking col1
to B and col2 to C generates a clause containing `B > 100 AND C <= true`. -/
theorem where_argument_rendering :
    (∀ n : Int, convertArg (.int n) = .ok (toString n))
    ∧ (∀ b : Bool, convertArg (.bool b) = .ok (cond b "true" "false"))
    ∧ (∀ s : String,
        convertArg (.str s) = .ok (singleQuote ++ s ++ singleQuote))
    ∧ ((newQueryBuilder testMapping ["col1", "col2"]).Where
        "col1 > ? AND col2 <= ?" [.int 100, .bool true]).Generate =
        .ok "select B, C where A is not null AND B > 100 AND C <= true "
    ∧ strContains "select B, C where A is not null AND B > 100 AND C <= true "
        "B > 100 AND C <= true" = true :=
  ⟨fun _ => rfl, fun _ => rfl, fun _ => rfl, by decide, by decide⟩

/-- C4: `Limit` and `Offset` commute as configuration calls, and generation
renders `offset m` before `limit n`, each clause emitted exactly when its
value is set. -/
theorem offset_before_limit
    (qb : queryBuilder) (n m : Nat) (s : String)
    (hn : n ≠ 0) (hm : m ≠ 0)
    (hl0 : qb.limitVal = 0) (ho0 : qb.offsetVal = 0)
    (hs : qb.Generate = .ok s) :
    ((qb.Limit n).Offset m) = ((qb.Offset m).Limit n)
    ∧ ((qb.Limit n).Offset m).Generate =
        .ok (s ++ " offset " ++ toString m ++ " limit " ++ toString n)
    ∧ (qb.Offset m).Generate = .ok (s ++ " offset " ++ toString m)
    ∧ (qb.Limit n).Generate = .ok (s ++ " limit " ++ toString n) := by
  cases hgw : generateWhere qb with
  | error e =>
      rw [generate_error_of_where hgw] at hs
      cases hs
  | ok w =>
      have hsval := generate_of_where_ok hgw
      rw [hs] at hsval
      have hseq : s = "select " ++ generateCols qb ++ " where " ++ w ++
          genOrderBy qb ++ genOffset qb ++ genLimit qb :=
        Except.ok.inj hsval
      have hoff : genOffset qb = "" := by simp [genOffset, ho0]
      have hlim : genLimit qb = "" := by simp [genLimit, hl0]
      refine ⟨rfl, ?_, ?_, ?_⟩
      · have hgw' : generateWhere ((qb.Limit n).Offset m) = .ok w := hgw
        rw [generate_of_where_ok hgw']
        have h1 : genOffset ((qb.Limit n).Offset m) =
            " offset " ++ toString m := by
          simp [genOffset, queryBuilder.Offset, queryBuilder.Limit, hm]
        have h2 : genLimit ((qb.Limit n).Offset m) =
            " limit " ++ toString n := by
          simp [genLimit, queryBuilder.Offset, queryBuilder.Limit, hn]
        have h3 : generateCols ((qb.Limit n).Offset m) = generateCols qb := rfl
        have h4 : genOrderBy ((qb.Limit n).Offset m) = genOrderBy qb := rfl
        rw [h1, h2, h3, h4, hseq, hoff, hlim]
        simp [String.append_empty, String.append_assoc]
      · have hgw' : generateWhere (qb.Offset m) = .ok w := hgw
        rw [generate_of_where_ok hgw']
        have h1 : genOffset (qb.Offset m) = " offset " ++ toString m := by
          simp [genOffset, queryBuilder.Offset, hm]
        have h2 : genLimit (qb.Offset m) = "" := by
          simp [genLimit, queryBuilder.Offset, hl0]
        have h3 : generateCols (qb.Offset m) = generateCols qb := rfl
        have h4 : genOrderBy (qb.Offset m) = genOrderBy qb := rfl
        rw [h1, h2, h3, h4, hseq, hoff, hlim]
        simp [String.append_empty, String.append_assoc]
      · have hgw' : generateWhere (qb.Limit n) = .ok w := hgw
        rw [generate_of_where_ok hgw']
        have h1 : genOffset (qb.Limit n) = "" := by
          simp [genOffset, queryBuilder.Limit, ho0]
        have h2 : genLimit (qb.Limit n) = " limit " ++ toString n := by
          simp [genLimit, queryBuilder.Limit, hn]
        have h3 : generateCols (qb.Limit n) = generateCols qb := rfl
        have h4 : genOrderBy (qb.Limit n) = genOrderBy qb := rfl
        rw [h1, h2, h3, h4, hseq, hoff, hlim]
        simp [String.append_empty, String.append_assoc]

/-- Witness for C4 at the inputs of `TestGenerateQuery`
(`successful_with_limit_offset`): `Limit(10).Offset(100)` renders
`offset 100 limit 10`, matching the expected
`select B, C where A is not null offset 100 limit 10`. -/
theorem offset_before_limit_witness :
    (((newQueryBuilder testMapping ["col1", "col2"]).Limit 10).Offset 100) =
      (((newQueryBuilder testMapping ["col1", "col2"]).Offset 100).Limit 10)
    ∧ (((newQueryBuilder testMapping ["col1", "col2"]).Limit 10).Offset
        100).Generate =
        .ok ("select B, C where A is not null" ++ " offset " ++ toString 100 ++
          " limit " ++ toString 10)
    ∧ ((newQueryBuilder testMapping ["col1", "col2"]).Offset 100).Generate =
        .ok ("select B, C where A is not null" ++ " offset " ++ toString 100)
    ∧ ((newQueryBuilder testMapping ["col1", "col2"]).Limit 10).Generate =
        .ok ("select B, C where A is not null" ++ " limit " ++ toString 10) :=
  offset_before_limit (newQueryBuilder testMapping ["col1", "col2"]) 10 100
    "select B, C where A is not null" (by decide) (by decide) rfl rfl
    (by decide)

/-- C5 fails on the code: the builder does not report unknown-column errors.
At the concrete input of `TestGenerateQuery`
(`unsuccessful_basic_wrong_column`), selecting the unmapped column `col3`
generates successfully with `col3` passed through, instead of failing. -/
theorem unknown_column_no_error_cex :
    (newQueryBuilder testMapping ["col1", "col2", "col3"]).Generate =
      .ok "select B, C, col3 where A is not null"
    ∧ (newQueryBuilder testMapping ["col1", "col2", "col3"]).Generate.isOk =
      true := by
  constructor
  · decide
  · decide

/-- C5 amended: a selected column name absent from the column mapping is not
an error; it passes through as a literal token (permissive passthrough) and
`Generate` succeeds. -/
theorem unknown_column_passthrough :
    (∀ (m : ColsNameMap) (c : String),
      mapLookup m c = none → resolveCol m c = c)
    ∧ (newQueryBuilder testMapping ["col1", "col2", "col3"]).Generate =
        .ok "select B, C, col3 where A is not null" :=
  ⟨fun _ _ h => by simp [resolveCol, h], by decide⟩

/-- Witness for the amended C5: `col3` is not in the test mapping and resolves
to itself. -/
theorem unknown_column_passthrough_witness :
    resolveCol testMapping "col3" = "col3" :=
  unknown_column_passthrough.1 testMapping "col3" (by decide)

/-- Witness for C2 at the inputs of `TestGenerateQuery`
(`unsuccessful_with_where_wrong_arg_count`): four placeholders, two
arguments. -/
theorem generate_where_mismatch_or_unsupported_errors_witness :
    ∃ e, ((newQueryBuilder testMapping ["col1", "col2"]).Where
      "(col1 > ? AND col2 <= ?) OR (col1 != ? AND col2 == ?)"
      [.int 100, .bool true]).Generate = .error e :=
  generate_where_mismatch_or_unsupported_errors testMapping ["col1", "col2"]
    "(col1 > ? AND col2 <= ?) OR (col1 != ? AND col2 == ?)"
    [.int 100, .bool true] (by decide) (Or.inl (by decide))

/-! ## Key-value append-only lookup (C6)

`kvGetAppendQueryTemplate` (src/models.go line 34) is
`=VLOOKUP("%s", SORT(%s, 3, FALSE), 2, FALSE)`: the table range is sorted on
column 3 (the timestamp/order column) with `is_ascending = FALSE`
(descending), and `VLOOKUP` with exact match returns the first row whose
first column equals the key.  We model the meaning of this formula from the
spec (section 4.5): sort all rows by the order column descending and return
the value of the first row matching the key. -/

/-- A row of the KV table: key (column 1), value (column 2), order/timestamp
(column 3). -/
structure KVRow where
  key : String
  value : String
  ts : Nat
deriving DecidableEq

/-- Insert a row into a list that is sorted by `ts` descending, keeping it
sorted (the comparison mirrors `SORT(range, 3, FALSE)`). -/
def insertDesc (r : KVRow) : List KVRow → List KVRow
  | [] => [r]
  | x :: xs => if x.ts ≤ r.ts then r :: x :: xs else x :: insertDesc r xs

/-- Modelled from the spec: `SORT(range, 3, FALSE)` — sort the table by
column 3 descending. -/
def sortByTsDesc : List KVRow → List KVRow
  | [] => []
  | x :: xs => insertDesc x (sortByTsDesc xs)

/-- Modelled from the spec: the append-mode lookup
`=VLOOKUP("key", SORT(range, 3, FALSE), 2, FALSE)` — first exact key match in
the descending-sorted table, returning column 2. -/
def kvAppendLookup (key : String) (rows : List KVRow) : Option String :=
  ((sortByTsDesc rows).find? (fun r => r.key == key)).map (fun r => r.value)

theorem mem_insertDesc {r y : KVRow} {l : List KVRow} :
    y ∈ insertDesc r l ↔ y = r ∨ y ∈ l := by
  induction l with
  | nil => simp [insertDesc]
  | cons x xs ih =>
      by_cases h : x.ts ≤ r.ts
      · simp [insertDesc, h]
      · simp [insertDesc, h, ih]
        tauto

theorem pairwise_insertDesc {r : KVRow} {l : List KVRow}
    (h : l.Pairwise (fun a b => b.ts ≤ a.ts)) :
    (insertDesc r l).Pairwise (fun a b => b.ts ≤ a.ts) := by
  induction l with
  | nil => simp [insertDesc]
  | cons x xs ih =>
      rcases List.pairwise_cons.1 h with ⟨hx, hxs⟩
      by_cases hle : x.ts ≤ r.ts
      · rw [insertDesc, if_pos hle]
        refine List.pairwise_cons.2 ⟨?_, h⟩
        intro y hy
        rcases List.mem_cons.1 hy with rfl | hmem
        · exact hle
        · exact le_trans (hx y hmem) hle
      · rw [insertDesc, if_neg hle]
        refine List.pairwise_cons.2 ⟨?_, ih hxs⟩
        intro y hy
        rcases mem_insertDesc.1 hy with rfl | hmem
        · omega
        · exact hx y hmem

theorem mem_sortByTsDesc {y : KVRow} {l : List KVRow} :
    y ∈ sortByTsDesc l ↔ y ∈ l := by
  induction l with
  | nil => simp [sortByTsDesc]
  | cons x xs ih => simp [sortByTsDesc, mem_insertDesc, ih]

theorem pairwise_sortByTsDesc (l : List KVRow) :
    (sortByTsDesc l).Pairwise (fun a b => b.ts ≤ a.ts) := by
  induction l with
  | nil => simp [sortByTsDesc]
  | cons x xs ih => exact pairwise_insertDesc ih

theorem find?_sorted_max {l : List KVRow} {k v : String} {t : Nat}
    (hsort : l.Pairwise (fun a b => b.ts ≤ a.ts))
    (hmem : (⟨k, v, t⟩ : KVRow) ∈ l)
    (hmax : ∀ r ∈ l, r.key = k → r ≠ ⟨k, v, t⟩ → r.ts < t) :
    l.find? (fun r => r.key == k) = some ⟨k, v, t⟩ := by
  induction l with
  | nil => cases hmem
  | cons x xs ih =>
      rcases List.pairwise_cons.1 hsort with ⟨hx, hxs⟩
      by_cases hk : x.key = k
      · have hfind : (x :: xs).find? (fun r => r.key == k) = some x := by
          simp [List.find?, hk]
        rw [hfind]
        by_cases hxe : x = ⟨k, v, t⟩
        · rw [hxe]
        · have hlt : x.ts < t := hmax x (List.mem_cons_self x xs) hk hxe
          rcases List.mem_cons.1 hmem with heq | hmemxs
          · exact absurd heq.symm hxe
          · have := hx _ hmemxs
            simp at this
            omega
      · have hxne : x ≠ (⟨k, v, t⟩ : KVRow) := by
          intro hcontra
          rw [hcontra] at hk
          exact hk rfl
        have hmemxs : (⟨k, v, t⟩ : KVRow) ∈ xs := by
          rcases List.mem_cons.1 hmem with heq | hmemxs
          · exact absurd heq.symm hxne
          · exact hmemxs
        have hstep : (x :: xs).find? (fun r => r.key == k) =
            xs.find? (fun r => r.key == k) := by
          simp [List.find?, show (x.key == k) = false from by simpa using hk]
        rw [hstep]
        exact ih hxs hmemxs (fun r hr => hmax r (List.mem_cons_of_mem x hr))

/-- C6: in append-only mode, a lookup of a key sorts all stored versions by
the order column (column 3, descending, as in the `kvGetAppendQuery` formula)
and returns the value of the version with the highest order value, never an
earlier one. -/
theorem kv_append_lookup_latest
    (rows : List KVRow) (k v : String) (t : Nat)
    (hmem : (⟨k, v, t⟩ : KVRow) ∈ rows)
    (hmax : ∀ r ∈ rows, r.key = k → r ≠ ⟨k, v, t⟩ → r.ts < t) :
    kvAppendLookup k rows = some v
    ∧ kvGetAppendQuery k defaultKVTableRange =
      "=VLOOKUP(\"" ++ k ++ "\", SORT(A1:C5000000, 3, FALSE), 2, FALSE)" := by
  constructor
  · unfold kvAppendLookup
    rw [find?_sorted_max (pairwise_sortByTsDesc rows)
      (mem_sortByTsDesc.2 hmem)
      (fun r hr => hmax r (mem_sortByTsDesc.1 hr))]
    rfl
  · unfold kvGetAppendQuery defaultKVTableRange
    simp [String.append_assoc]

/-- Witness for C6 at the scenario of spec section 8: three versions of key
`k` with increasing order values; the lookup returns the value of the
highest order, never an earlier one. -/
theorem kv_append_lookup_latest_witness :
    kvAppendLookup "k" [⟨"k", "v1", 1⟩, ⟨"k", "v2", 2⟩, ⟨"k", "v3", 3⟩] =
      some "v3"
    ∧ kvGetAppendQuery "k" defaultKVTableRange =
      "=VLOOKUP(\"" ++ "k" ++ "\", SORT(A1:C5000000, 3, FALSE), 2, FALSE)" :=
  kv_append_lookup_latest [⟨"k", "v1", 1⟩, ⟨"k", "v2", 2⟩, ⟨"k", "v3", 3⟩]
    "k" "v3" 3 (by decide) (by decide)

/-! ## Scratchpad booking token (C7) -/

/-- Modelled from the spec (section 4.5 step 1): the token written into the
reserved scratchpad cell when a multi-step sequence starts.  The write call
itself lives outside the provided sources; the only token value in the source
is the constant `scratchpadBooked = "BOOKED"` (src/models.go line 27), so
every initiation — indexed here by a sequence number — writes that same
constant. -/
def bookingTokenWritten (_seq : Nat) : String := scratchpadBooked

/-- C7 fails on the code: two distinct sequence initiations write the same
token `"BOOKED"`, so the token written is not unique per initiation. -/
theorem booking_token_not_unique_cex :
    bookingTokenWritten 0 = bookingTokenWritten 1 ∧ (0 : Nat) ≠ 1 :=
  ⟨rfl, by decide⟩

/-- C7 amended: before every multi-step scratchpad sequence begins, the fixed
booking token `"BOOKED"` (the constant `scratchpadBooked`) is written into the
reserved scratchpad cell; the token marks the cell as in use and is the same
for every initiation — it does not identify the individual sequence. -/
theorem booking_token_constant :
    ∀ seq : Nat, bookingTokenWritten seq = scratchpadBooked
      ∧ scratchpadBooked = "BOOKED" :=
  fun _ => ⟨rfl, rfl⟩

/-! ## Row codec (C8, C9, C10)

The Insert statement's `convertRowToSlice` and the Select statement's row
decoding live outside the provided sources; they are modelled from the spec
(section 4.3), calibrated against `TestGoogleSheetInsertStmt_convertRowToSlice`
and `TestSelectStmt_Exec`. -/

/-- A spreadsheet cell value. `ridFormula` is the row-index formula
placeholder the Insert statement writes into the reserved first column
(`rowIdxFormula` in the tests); `null` is the explicit null marker used for
missing fields. -/
inductive Cell where
  | str (s : String)
  | int (n : Int)
  | bool (b : Bool)
  | null
  | ridFormula
deriving DecidableEq

/-- A value handed to `Insert`.  The struct case carries the field map the
reflection step produces from the struct's tags (a field is absent from the
map when it is unset and tagged `omitempty`); the pointer case dereferences
to the same map; everything else is a non-struct input. -/
inductive InsertInput where
  | nullInput
  | intInput (n : Int)
  | strInput (s : String)
  | listInput (elems : List Int)
  | structInput (fields : List (String × Cell))
  | ptrStructInput (fields : List (String × Cell))
deriving DecidableEq

/-- Look a column's value up in a field map; absent columns yield the
explicit null marker. -/
def fieldLookup (fields : List (String × Cell)) (c : String) : Cell :=
  ((List.find? (fun p => p.1 == c) fields).map (fun p => p.2)).getD Cell.null

/-- Does the input dereference to a struct? -/
def InsertInput.isStructLike : InsertInput → Bool
  | .structInput _ => true
  | .ptrStructInput _ => true
  | _ => false

/-- Modelled from the spec (section 4.3, encoding): for a struct (or pointer
to struct), emit the row-index formula placeholder first, then one cell per
declared schema column in column order, with missing fields encoded as the
explicit null marker; any non-struct input is an error producing no row. -/
def convertRowToSlice (schemaCols : List String) :
    InsertInput → Except String (List Cell)
  | .structInput fields =>
      .ok (Cell.ridFormula :: schemaCols.map (fieldLookup fields))
  | .ptrStructInput fields =>
      .ok (Cell.ridFormula :: schemaCols.map (fieldLookup fields))
  | _ => .error "row type must be either a struct or a pointer to a struct"

/-- The schema of the `person` tests: columns name, age, dob. -/
def personSchema : List String := ["name", "age", "dob"]

/-- C8: encoding a struct (or a pointer to one) produces a row whose first
cell is the row-index formula placeholder (never caller data), followed by
one cell per declared schema column in column order; a declared column whose
field is missing from the record is encoded as an explicit null cell, so
positional alignment with the physical columns is preserved. -/
theorem insert_row_layout
    (schema : List String) (fields : List (String × Cell))
    (input : InsertInput)
    (hstruct : input = .structInput fields ∨ input = .ptrStructInput fields) :
    ∃ row, convertRowToSlice schema input = .ok row
      ∧ row.length = schema.length + 1
      ∧ row.get? 0 = some Cell.ridFormula
      ∧ (∀ i c, schema.get? i = some c →
          row.get? (i + 1) = some (fieldLookup fields c))
      ∧ (∀ i c, schema.get? i = some c → c ∉ fields.map Prod.fst →
          row.get? (i + 1) = some Cell.null) := by
  have hconv : convertRowToSlice schema input =
      .ok (Cell.ridFormula :: schema.map (fieldLookup fields)) := by
    rcases hstruct with rfl | rfl <;> rfl
  refine ⟨Cell.ridFormula :: schema.map (fieldLookup fields), hconv, ?_, rfl,
    ?_, ?_⟩
  · simp
  · intro i c hc
    show (Cell.ridFormula :: schema.map (fieldLookup fields)).get? (i + 1) = _
    rw [List.get?_cons_succ, List.get?_map, hc]
    rfl
  · intro i c hc habs
    have hfind : List.find? (fun p => p.1 == c) fields = none := by
      rw [List.find?_eq_none]
      intro p hp hbeq
      exact habs (by
        have : p.1 = c := by simpa using hbeq
        rw [← this]
        exact List.mem_map_of_mem Prod.fst hp)
    show (Cell.ridFormula :: schema.map (fieldLookup fields)).get? (i + 1) = _
    rw [List.get?_cons_succ, List.get?_map, hc]
    simp [fieldLookup, hfind]

/-- Witness for C8 at the `struct` sub-test of
`TestGoogleSheetInsertStmt_convertRowToSlice`: `person{Name: "blah", DOB:
"2021"}` has its unset `age` field (tagged omitempty) absent from the field
map, and encodes as `[rowIdxFormula, "blah", nil, "2021"]`. -/
theorem insert_row_layout_witness :
    ∃ row, convertRowToSlice personSchema
        (.structInput [("name", Cell.str "blah"), ("dob", Cell.str "2021")]) =
        .ok row
      ∧ row.length = personSchema.length + 1
      ∧ row.get? 0 = some Cell.ridFormula
      ∧ (∀ i c, personSchema.get? i = some c →
          row.get? (i + 1) = some (fieldLookup
            [("name", Cell.str "blah"), ("dob", Cell.str "2021")] c))
      ∧ (∀ i c, personSchema.get? i = some c →
          c ∉ [("name", Cell.str "blah"),
            ("dob", Cell.str "2021")].map Prod.fst →
          row.get? (i + 1) = some Cell.null) :=
  insert_row_layout personSchema
    [("name", Cell.str "blah"), ("dob", Cell.str "2021")]
    (.structInput [("name", Cell.str "blah"), ("dob", Cell.str "2021")])
    (Or.inl rfl)

/-- C10: every non-struct input — nil, a plain integer, a plain string, a
slice — makes `convertRowToSlice` fail with an error and produce no row. -/
theorem insert_non_struct_errors
    (schema : List String) (input : InsertInput)
    (h : input.isStructLike = false) :
    ∃ e, convertRowToSlice schema input = .error e := by
  cases input <;> simp [InsertInput.isStructLike] at h <;>
    exact ⟨_, rfl⟩

/-- Witness for C10 at the `non_struct` sub-test inputs: the integer input
`1` is rejected. -/
theorem insert_non_struct_errors_witness :
    ∃ e, convertRowToSlice personSchema (.intInput 1) = .error e :=
  insert_non_struct_errors personSchema (.intInput 1) rfl

/-- Modelled from the spec (section 4.3, decoding): a returned raw row is
matched positionally against the requested column order (`zip`), and an
output field receives the value of its column if the column was requested,
its zero/default value otherwise. -/
def decodeRowField (requested : List String) (raw : List Cell) (c : String) :
    Cell :=
  fieldLookup (requested.zip raw) c

theorem zip_lookup_positional :
    ∀ (requested : List String) (raw : List Cell), requested.Nodup →
      raw.length = requested.length →
      ∀ i c, requested.get? i = some c →
        ∃ v, raw.get? i = some v ∧ fieldLookup (requested.zip raw) c = v
  | [], _, _, _, i, c, hc => by cases hc
  | r :: rest, [], _, hlen, _, _, _ => by cases hlen
  | r :: rest, v :: vs, hnodup, hlen, i, c, hc => by
      rcases List.pairwise_cons.1 hnodup with ⟨hr, hrest⟩
      cases i with
      | zero =>
          have hcr : r = c := by simpa using hc
          refine ⟨v, rfl, ?_⟩
          simp [fieldLookup, List.zip_cons_cons, List.find?,
            show (r == c) = true from by simp [hcr]]
      | succ j =>
          have hcj : rest.get? j = some c := by simpa using hc
          have hrc : r ≠ c := hr c (List.get?_mem hcj)
          have hlen' : vs.length = rest.length := by simpa using hlen
          obtain ⟨w, hw, hval⟩ :=
            zip_lookup_positional rest vs hrest hlen' j c hcj
          refine ⟨w, by simpa using hw, ?_⟩
          rw [← hval]
          simp [fieldLookup, List.zip_cons_cons, List.find?,
            show (r == c) = false from by simpa using hrc]
          rfl

/-- C9: decoding a partial Select assigns raw values positionally by the
requested column order — the field for the column requested at position `i`
receives the raw cell at position `i` — and every field whose column was not
requested stays at its zero/default value. -/
theorem select_partial_decode
    (schema requested : List String) (raw : List Cell)
    (hsub : ∀ c ∈ requested, c ∈ schema)
    (hnodup : requested.Nodup)
    (hlen : raw.length = requested.length) :
    (∀ i c, requested.get? i = some c →
      ∃ v, raw.get? i = some v ∧ decodeRowField requested raw c = v)
    ∧ (∀ c, c ∉ requested → decodeRowField requested raw c = Cell.null) := by
  constructor
  · exact zip_lookup_positional requested raw hnodup hlen
  · intro c hc
    have hfind : List.find? (fun p => p.1 == c) (requested.zip raw) = none := by
      rw [List.find?_eq_none]
      intro p hp hbeq
      have hp1 : p.1 = c := by simpa using hbeq
      exact hc (hp1 ▸ (List.of_mem_zip hp).1)
    simp [decodeRowField, fieldLookup, hfind]

/-- Witness for C9 at the `successful` sub-test of `TestSelectStmt_Exec`:
requesting `[age, dob]` from the person schema against the raw row
`[10, "17-01-2001"]` assigns 10 to age, "17-01-2001" to dob, and leaves name
at its default. -/
theorem select_partial_decode_witness :
    (∀ i c, (["age", "dob"] : List String).get? i = some c →
      ∃ v, ([Cell.int 10, Cell.str "17-01-2001"] : List Cell).get? i = some v
        ∧ decodeRowField ["age", "dob"] [Cell.int 10, Cell.str "17-01-2001"]
            c = v)
    ∧ (∀ c, c ∉ (["age", "dob"] : List String) →
      decodeRowField ["age", "dob"] [Cell.int 10, Cell.str "17-01-2001"] c =
        Cell.null) :=
  select_partial_decode personSchema ["age", "dob"]
    [Cell.int 10, Cell.str "17-01-2001"] (by decide) (by decide) rfl
